import Mathlib

set_option maxRecDepth 100000
set_option autoImplicit false

/-!
Verification of the All-In Margin calculator engine (app.py).

The Python source is embedded shallowly:
* Python floats become exact rationals (ℚ); Python's round(x, n) (banker's
  rounding) becomes pyRound, built on an exact round-half-to-even on ℚ.
* Calendar dates (datetime + relativedelta month stepping) become a Date
  structure with civil-calendar month addition and a Rata-Die day number.
* Dict lookups that can raise KeyError become Option-valued parsing; the
  Flask /calculate boundary that catches exceptions becomes a CalcResponse
  sum type.
* numpy_financial.irr, an external numerical root finder, is abstracted as
  a parameter of type List ℚ → Option ℚ (none models both a None/NaN result
  and a raised exception).
-/

/- ------------------------------------------------------------------ -/
/- Date helpers (parse_date / period_date / days_between)              -/
/- ------------------------------------------------------------------ -/

/-- Calendar date: year, month (1..12), day (1..31). -/
structure Date where
  year : ℤ
  month : ℤ
  day : ℤ
deriving DecidableEq

/-- Gregorian leap-year test. -/
def isLeapYear (y : ℤ) : Bool :=
  y % 4 == 0 && (y % 100 != 0 || y % 400 == 0)

/-- Number of days in a Gregorian month. -/
def daysInMonth (y m : ℤ) : ℤ :=
  if m = 2 then (if isLeapYear y then 29 else 28)
  else if m = 4 ∨ m = 6 ∨ m = 9 ∨ m = 11 then 30
  else 31

/-- dateutil.relativedelta month addition: shift by n calendar months,
clamping the day-of-month to the last valid day of the target month. -/
def addMonths (d : Date) (n : ℤ) : Date :=
  let t := d.year * 12 + (d.month - 1) + n
  let y := t.ediv 12
  let m := t.emod 12 + 1
  { year := y, month := m, day := min d.day (daysInMonth y m) }

/-- Rata-Die style day number of a civil date (days_from_civil algorithm),
so that subtraction gives the exact calendar day count of (d2 - d1).days. -/
def toRataDie (d : Date) : ℤ :=
  let y := if d.month ≤ 2 then d.year - 1 else d.year
  let era := y.ediv 400
  let yoe := y - era * 400
  let mp := (d.month + 9).emod 12
  let doy := (153 * mp + 2).ediv 5 + d.day - 1
  let doe := yoe * 365 + yoe.ediv 4 - yoe.ediv 100 + doy
  era * 146097 + doe

/-- days_between: actual days between two dates, (d2 - d1).days. -/
def days_between (d1 d2 : Date) : ℤ :=
  toRataDie d2 - toRataDie d1

/-- period_date: date for a given period index (period 0 = start). -/
def period_date (start : Date) (period : ℤ) (frequency_months : ℤ) : Date :=
  addMonths start (period * frequency_months)

/- ------------------------------------------------------------------ -/
/- Python rounding on the rational model                               -/
/- ------------------------------------------------------------------ -/

/-- Round a rational to the nearest integer, ties to the even integer
(Python's round / banker's rounding, exact on ℚ). -/
def roundHalfEven (q : ℚ) : ℤ :=
  if q - ⌊q⌋ < 1/2 then ⌊q⌋
  else if 1/2 < q - ⌊q⌋ then ⌊q⌋ + 1
  else if ⌊q⌋ % 2 = 0 then ⌊q⌋ else ⌊q⌋ + 1

/-- Python's round(q, n): round to n decimal places, ties to even. -/
def pyRound (q : ℚ) (n : ℕ) : ℚ :=
  (roundHalfEven (q * 10 ^ n) : ℚ) / 10 ^ n

/- ------------------------------------------------------------------ -/
/- Input data model                                                    -/
/- ------------------------------------------------------------------ -/

/-- Payment frequency enum, the recognized values of the frequency field. -/
inductive Frequency where
  | Monthly
  | Quarterly
  | Semiannually
deriving DecidableEq

/-- Dict lookup freq_months[frequency]; none models the KeyError raised on
an unrecognized frequency string. -/
def parseFrequency (s : String) : Option Frequency :=
  if s = "Monthly" then some Frequency.Monthly
  else if s = "Quarterly" then some Frequency.Quarterly
  else if s = "Semiannually" then some Frequency.Semiannually
  else none

/-- Months per period: Monthly=1, Quarterly=3, Semiannually=6. -/
def freqMonths : Frequency → ℤ
  | Frequency.Monthly => 1
  | Frequency.Quarterly => 3
  | Frequency.Semiannually => 6

/-- Annualization multiplier: Monthly=12, Quarterly=4, Semiannually=2. -/
def freqMultiplier : Frequency → ℚ
  | Frequency.Monthly => 12
  | Frequency.Quarterly => 4
  | Frequency.Semiannually => 2

/-- One ad-hoc amortization breakpoint {"month": int, "value": float}. -/
structure AdhocRow where
  month : ℤ
  value : ℚ
deriving DecidableEq

/-- The input parameter dict, after the float()/int() coercions at the top
of build_schedule. frequency and amortization_profile stay raw strings
because the source branches on the strings (with a silent default branch
for the profile). grace_periods is optional with default num_periods. -/
structure Params where
  loan_amount : ℚ
  num_periods : ℕ
  draw_period : ℤ
  grace_periods : Option ℤ
  frequency : String
  margin_draw : ℚ
  margin_after : ℚ
  step_up : ℚ
  step_up_period : ℤ
  upfront_fee_rate : ℚ
  commitment_fee_rate : ℚ
  disbursement_date : Date
  amortization_profile : String
  adhoc_table : List AdhocRow
  adhoc_use_percent : Bool
  mortgage_rate : ℚ
  mortgage_amort_years : ℚ
deriving DecidableEq

/- ------------------------------------------------------------------ -/
/- adhoc_payment                                                       -/
/- ------------------------------------------------------------------ -/

/-- Sort key relation of sorted(adhoc_table, key=month). -/
def monthLe (a b : AdhocRow) : Prop := a.month ≤ b.month

instance : DecidableRel monthLe :=
  fun a b => inferInstanceAs (Decidable (a.month ≤ b.month))

instance : IsTotal AdhocRow monthLe := ⟨fun a b => le_total a.month b.month⟩

instance : IsTrans AdhocRow monthLe := ⟨fun _ _ _ h1 h2 => le_trans h1 h2⟩

/-- Python's sorted(table, key=month): a stable sort by month
(insertion sort inserting before the first strictly later element is
stable, like Timsort). -/
def sortByMonth (l : List AdhocRow) : List AdhocRow :=
  List.insertionSort monthLe l

/-- The scan loop of adhoc_payment: walk the sorted table keeping the last
row with month ≤ target as applicable, stopping (break) at the first row
with month > target. -/
def adhocLoop (target : ℤ) (acc : Option AdhocRow) :
    List AdhocRow → Option AdhocRow
  | [] => acc
  | r :: rs => if r.month ≤ target then adhocLoop target (some r) rs else acc

/-- adhoc_payment: look up the amortization payment for the given
period_months offset.  value is % of loan_amount when use_percent else a
raw amount. -/
def adhoc_payment (loan_amount : ℚ) (period_months : ℤ)
    (adhoc_table : List AdhocRow) (use_percent : Bool) : ℚ :=
  if adhoc_table = [] then 0
  else
    match adhocLoop period_months none (sortByMonth adhoc_table) with
    | none => 0
    | some row => if use_percent then loan_amount * (row.value / 100) else row.value

/- ------------------------------------------------------------------ -/
/- build_schedule                                                      -/
/- ------------------------------------------------------------------ -/

/-- One row of the amortization schedule. -/
structure ScheduleRow where
  period : ℕ
  date : Date
  days : ℤ
  beginning_bal : ℚ
  draws : ℚ
  amortization : ℚ
  interest : ℚ
  upfront_fee : ℚ
  commitment_fee : ℚ
  ending_bal : ℚ
deriving DecidableEq

/-- Periodic mortgage rate: annual rate divided by periods per year
(0 outside the Mortgage profile, where the source leaves it at 0.0). -/
def mortgageR (P : Params) (fm : ℤ) : ℚ :=
  if P.amortization_profile = "Mortgage" then
    P.mortgage_rate / (12 / (fm : ℚ))
  else 0

/-- n_amort = int(round(mortgage_amort_years * periods_per_year)). -/
def nAmort (P : Params) (fm : ℤ) : ℤ :=
  roundHalfEven (P.mortgage_amort_years * (12 / (fm : ℚ)))

/-- Precomputed mortgage PMT (0 outside the Mortgage profile): the annuity
formula for r > 0, loan / n for r ≤ 0, 0 for n ≤ 0. -/
def mortgagePmt (P : Params) (fm : ℤ) : ℚ :=
  if P.amortization_profile = "Mortgage" then
    if 0 < nAmort P fm then
      if 0 < mortgageR P fm then
        P.loan_amount * mortgageR P fm /
          (1 - ((1 + mortgageR P fm) ^ (nAmort P fm).toNat)⁻¹)
      else P.loan_amount / ((nAmort P fm : ℤ) : ℚ)
    else 0
  else 0

/-- Evaluated context of one build_schedule call: the parameters together
with the values precomputed before the period loop. -/
structure Ctx where
  P : Params
  fm : ℤ
  grace : ℤ
  pmt : ℚ
  r : ℚ

/-- Assemble the context from parsed params (lines 85-117 of app.py). -/
def mkCtx (P : Params) (f : Frequency) : Ctx :=
  { P := P
    fm := freqMonths f
    grace := P.grace_periods.getD (P.num_periods : ℤ)
    pmt := mortgagePmt P (freqMonths f)
    r := mortgageR P (freqMonths f) }

/-- Margin for period p: margin_draw through the draw period, margin_after
afterwards, plus step_up once p reaches a positive step_up_period. -/
def marginOf (c : Ctx) (p : ℕ) : ℚ :=
  let m0 := if (p : ℤ) ≤ c.P.draw_period then c.P.margin_draw else c.P.margin_after
  if 0 < c.P.step_up_period ∧ c.P.step_up_period ≤ (p : ℤ) then m0 + c.P.step_up else m0

/-- Day count of period p ≥ 1: days between the dates of periods p-1 and p. -/
def daysOf (c : Ctx) (p : ℕ) : ℤ :=
  days_between (period_date c.P.disbursement_date ((p : ℤ) - 1) c.fm)
    (period_date c.P.disbursement_date (p : ℤ) c.fm)

/-- Interest accrual of period p ≥ 1 (before rounding): only through the
grace periods and only on a positive balance, Actual/360. -/
def interestOf (c : Ctx) (p : ℕ) (beg : ℚ) : ℚ :=
  if (p : ℤ) ≤ c.grace ∧ 0 < beg then
    marginOf c p * beg * ((daysOf c p : ℚ) / 360)
  else 0

/-- Commitment fee of period p ≥ 1 (before rounding): on the undrawn
balance, only through the draw period. -/
def commitFeeOf (c : Ctx) (p : ℕ) (beg : ℚ) : ℚ :=
  if (p : ℤ) ≤ c.P.draw_period then
    max (c.P.loan_amount - beg) 0 * c.P.commitment_fee_rate * ((daysOf c p : ℚ) / 360)
  else 0

/-- Month offset of period p from the disbursement date, computed from the
calendar year/month difference (the Ad-hoc lookup key). -/
def monthOffsetOf (c : Ctx) (p : ℕ) : ℤ :=
  let pd := period_date c.P.disbursement_date (p : ℤ) c.fm
  (pd.year - c.P.disbursement_date.year) * 12 + (pd.month - c.P.disbursement_date.month)

/-- Amortization of period p ≥ 1 (before rounding), per profile; the
unrecognized-profile branch of the source yields 0. -/
def amortOf (c : Ctx) (p : ℕ) (beg : ℚ) : ℚ :=
  if c.P.amortization_profile = "Bullet" then
    (if p = c.P.num_periods then beg else 0)
  else if c.P.amortization_profile = "Ad-hoc" then
    min (adhoc_payment c.P.loan_amount (monthOffsetOf c p) c.P.adhoc_table c.P.adhoc_use_percent) beg
  else if c.P.amortization_profile = "Mortgage" then
    (if (p : ℤ) ≤ c.P.draw_period then 0
     else if p = c.P.num_periods then beg
     else max 0 (min (c.pmt - c.r * beg) beg))
  else 0

/-- Loop body of build_schedule: the row for period p given the balance
carried in from the previous period (ignored at p = 0). -/
def buildRow (c : Ctx) (p : ℕ) (bal : ℚ) : ScheduleRow :=
  match p with
  | 0 =>
    { period := 0
      date := period_date c.P.disbursement_date 0 c.fm
      days := 0
      beginning_bal := 0
      draws := c.P.loan_amount
      amortization := 0
      interest := 0
      upfront_fee := c.P.loan_amount * c.P.upfront_fee_rate
      commitment_fee := 0
      ending_bal := c.P.loan_amount }
  | q + 1 =>
    { period := q + 1
      date := period_date c.P.disbursement_date ((q : ℤ) + 1) c.fm
      days := daysOf c (q + 1)
      beginning_bal := bal
      draws := 0
      amortization := pyRound (amortOf c (q + 1) bal) 6
      interest := pyRound (interestOf c (q + 1) bal) 6
      upfront_fee := 0
      commitment_fee := pyRound (commitFeeOf c (q + 1) bal) 6
      ending_bal := pyRound (max (bal + 0 - amortOf c (q + 1) bal) 0) 6 }

/-- The p-th row of the schedule, threading the running balance exactly as
the source loop does (balance := row's ending_bal after each period). -/
def rowAt (c : Ctx) : ℕ → ScheduleRow
  | 0 => buildRow c 0 0
  | p + 1 => buildRow c (p + 1) (rowAt c p).ending_bal

/-- The full schedule: rows for periods 0..num_periods inclusive. -/
def sched (c : Ctx) : List ScheduleRow :=
  (List.range (c.P.num_periods + 1)).map (rowAt c)

/-- build_schedule: none models the KeyError on an unrecognized frequency
(line 101 of app.py); the date is already structured, so parse_date cannot
fail in this model. -/
def build_schedule (P : Params) : Option (List ScheduleRow) :=
  (parseFrequency P.frequency).map (fun f => sched (mkCtx P f))

/- ------------------------------------------------------------------ -/
/- Cash flow arrays & IRR                                              -/
/- ------------------------------------------------------------------ -/

/-- The three lender-perspective cash flow columns T, U, V. -/
structure CfCols where
  T : List ℚ
  U : List ℚ
  V : List ℚ
deriving DecidableEq

/-- build_cashflow_arrays: per row, base = interest + amortization - draws;
T = base, U = base + upfront fee, V = U + commitment fee.  The draw_period
argument is accepted and unused, as in the source. -/
def build_cashflow_arrays (schedule : List ScheduleRow) (draw_period : ℤ) : CfCols :=
  let _ := draw_period
  { T := schedule.map (fun row => row.interest + row.amortization - row.draws)
    U := schedule.map (fun row => row.interest + row.amortization - row.draws + row.upfront_fee)
    V := schedule.map (fun row =>
      row.interest + row.amortization - row.draws + row.upfront_fee + row.commitment_fee) }

/-- The external periodic-IRR solver (numpy_financial.irr): some r is a
finite real root estimate; none covers a None result, a NaN, and any
raised exception (all mapped to the same fallback by the source). -/
def IrrSolver : Type := List ℚ → Option ℚ

/-- annualized_irr: 0 on an all-zero series, 0 when the solver fails,
otherwise the periodic rate times the frequency multiplier. -/
def annualized_irr (solver : IrrSolver) (cashflows : List ℚ) (frequency : Frequency) : ℚ :=
  let multiplier := freqMultiplier frequency
  if cashflows.all (fun q => decide (q = 0)) then 0
  else
    match solver cashflows with
    | none => 0
    | some irr_per_period => irr_per_period * multiplier

/-- The IRR component breakdown, in percent, rounded to 6 decimals. -/
structure IrrComponents where
  ir_spread : ℚ
  upfront_impact : ℚ
  commitment_impact : ℚ
  all_in_margin : ℚ
deriving DecidableEq

/-- calculate_irr_components (the source's local bindings ir_spread,
irr_with_uf, irr_all_in written out in place). -/
def calculate_irr_components (solver : IrrSolver) (schedule : List ScheduleRow)
    (P : Params) (frequency : Frequency) : IrrComponents :=
  { ir_spread :=
      pyRound (annualized_irr solver (build_cashflow_arrays schedule P.draw_period).T frequency
        * 100) 6
    upfront_impact :=
      pyRound ((annualized_irr solver (build_cashflow_arrays schedule P.draw_period).U frequency
        - annualized_irr solver (build_cashflow_arrays schedule P.draw_period).T frequency)
        * 100) 6
    commitment_impact :=
      pyRound ((annualized_irr solver (build_cashflow_arrays schedule P.draw_period).V frequency
        - annualized_irr solver (build_cashflow_arrays schedule P.draw_period).U frequency)
        * 100) 6
    all_in_margin :=
      pyRound (annualized_irr solver (build_cashflow_arrays schedule P.draw_period).V frequency
        * 100) 6 }

/- ------------------------------------------------------------------ -/
/- Weighted Average Life                                               -/
/- ------------------------------------------------------------------ -/

/-- calculate_wal: amortization-weighted average life in years, rounded to
4 decimals; 0 when total amortization is 0. -/
def calculate_wal (schedule : List ScheduleRow) (frequency_months : ℤ) : ℚ :=
  if (schedule.map (fun row => row.amortization)).sum = 0 then 0
  else
    pyRound
      ((schedule.foldl
        (fun acc row =>
          if 0 < row.amortization then
            acc + ((row.period : ℚ) * (frequency_months : ℚ)) *
              (row.amortization / (schedule.map (fun row => row.amortization)).sum)
          else acc) 0) / 12) 4

/- ------------------------------------------------------------------ -/
/- Validation                                                          -/
/- ------------------------------------------------------------------ -/

/-- The advisory validation summary. -/
structure ValidationResult where
  draws_total : ℚ
  amort_total : ℚ
  final_balance : ℚ
  draw_status : String
  balance_ok : Bool
deriving DecidableEq

/-- validate: none models the IndexError of schedule[-1] on an empty
schedule (caught at the request boundary). -/
def validate (schedule : List ScheduleRow) (loan_amount : ℚ) : Option ValidationResult :=
  match schedule.getLast? with
  | none => none
  | some last =>
    let total_draws := (schedule.map (fun row => row.draws)).sum
    let total_amort := (schedule.map (fun row => row.amortization)).sum
    let neg_bal := schedule.any (fun row => decide (row.ending_bal < -(1/100)))
    some
      { draws_total := pyRound total_draws 2
        amort_total := pyRound total_amort 2
        final_balance := pyRound last.ending_bal 2
        draw_status := if |total_draws - loan_amount| ≤ 1 then "OK" else "Review Draw"
        balance_ok := !neg_bal }

/- ------------------------------------------------------------------ -/
/- /calculate request boundary                                         -/
/- ------------------------------------------------------------------ -/

/-- A schedule row as serialized for display (monetary fields rounded to
2 decimals). -/
structure RowOut where
  period : ℕ
  date : Date
  days : ℤ
  beginning_bal : ℚ
  draws : ℚ
  amortization : ℚ
  interest : ℚ
  upfront_fee : ℚ
  commitment_fee : ℚ
  ending_bal : ℚ
deriving DecidableEq

/-- Display serialization of one schedule row. -/
def serializeRow (row : ScheduleRow) : RowOut :=
  { period := row.period
    date := row.date
    days := row.days
    beginning_bal := pyRound row.beginning_bal 2
    draws := pyRound row.draws 2
    amortization := pyRound row.amortization 2
    interest := pyRound row.interest 2
    upfront_fee := pyRound row.upfront_fee 2
    commitment_fee := pyRound row.commitment_fee 2
    ending_bal := pyRound row.ending_bal 2 }

/-- Outcome of the /calculate route: a success payload, or the structured
failure produced by the except branch (success false plus message). -/
inductive CalcResponse where
  | success (schedule : List RowOut) (irr : IrrComponents) (wal : ℚ)
      (validation : ValidationResult)
  | failure (error : String)
deriving DecidableEq

/-- Whether a response is the success payload. -/
def isSuccessResp : CalcResponse → Bool
  | CalcResponse.success _ _ _ _ => true
  | CalcResponse.failure _ => false

/-- The /calculate route body: every raised condition (unknown frequency
KeyError at the freq_months lookup, empty-schedule IndexError inside
validate) is caught and becomes a structured failure. -/
def calculate (solver : IrrSolver) (P : Params) : CalcResponse :=
  match parseFrequency P.frequency with
  | none => CalcResponse.failure ("KeyError: " ++ P.frequency)
  | some f =>
    match build_schedule P with
    | none => CalcResponse.failure ("KeyError: " ++ P.frequency)
    | some schedule =>
      match validate schedule P.loan_amount with
      | none => CalcResponse.failure ("IndexError")
      | some v =>
        CalcResponse.success (schedule.map serializeRow)
          (calculate_irr_components solver schedule P f)
          (calculate_wal schedule (freqMonths f)) v

/- ------------------------------------------------------------------ -/
/- Concrete example inputs used by witnesses and counterexamples       -/
/- ------------------------------------------------------------------ -/

/-- The spec's Bullet example: loan 100, 4 quarterly periods, margins 4%,
disbursed 2024-01-01. -/
def exBulletQ : Params :=
  { loan_amount := 100, num_periods := 4, draw_period := 0, grace_periods := none
    frequency := "Quarterly", margin_draw := 4/100, margin_after := 4/100
    step_up := 0, step_up_period := 0, upfront_fee_rate := 0, commitment_fee_rate := 0
    disbursement_date := ⟨2024, 1, 1⟩, amortization_profile := "Bullet"
    adhoc_table := [], adhoc_use_percent := true, mortgage_rate := 0, mortgage_amort_years := 0 }

/-- The example input with an unrecognized amortization profile. -/
def exUnknownProfile : Params :=
  { exBulletQ with amortization_profile := "Linear" }

/-- The example input with an unrecognized frequency. -/
def exBadFreq : Params :=
  { exBulletQ with frequency := "Weekly" }

/-- The input that refutes exact final-amortization equality: a Bullet loan
of 0.0000005 over a single period. -/
def exBulletTiny : Params :=
  { exBulletQ with
    loan_amount := 1/2000000
    num_periods := 1
    frequency := "Monthly"
    margin_draw := 0
    margin_after := 0 }

/-- The input that refutes period-0 rounding: upfront_fee_rate = 1e-9 on a
loan of 100 gives an upfront fee of 1e-7, recorded unrounded. -/
def exUpfrontTiny : Params :=
  { exBulletQ with
    upfront_fee_rate := 1/1000000000
    num_periods := 1
    frequency := "Monthly" }

/-- The schedule of the Bullet/Quarterly example, for closed witnesses. -/
def exSchedQ : List ScheduleRow := sched (mkCtx exBulletQ Frequency.Quarterly)

/-- A Mortgage input whose final period coincides with the draw period
(draw_period = num_periods = 1, allowed since draw_period ≤ num_periods). -/
def exMortDraw : Params :=
  { exBulletQ with
    amortization_profile := "Mortgage"
    frequency := "Monthly"
    num_periods := 1
    draw_period := 1
    mortgage_rate := 0
    mortgage_amort_years := 1 }

/-- A Mortgage input with rate 0 over a 1-year amortization term. -/
def exMortgage : Params :=
  { exBulletQ with
    amortization_profile := "Mortgage"
    frequency := "Monthly"
    num_periods := 2
    draw_period := 0
    mortgage_rate := 0
    mortgage_amort_years := 1 }

/-- A handmade one-row schedule for the C8 witness. -/
def exRowW : ScheduleRow :=
  { period := 1, date := ⟨2024, 2, 1⟩, days := 31, beginning_bal := 10, draws := 0
    amortization := 10, interest := 0, upfront_fee := 0, commitment_fee := 0, ending_bal := 0 }

/-- The zero-loan example input. -/
def exZeroLoan : Params :=
  { exBulletQ with
    loan_amount := 0
    num_periods := 1
    frequency := "Monthly" }

/-- The schedule of the zero-loan example. -/
def exSchedZero : List ScheduleRow := sched (mkCtx exZeroLoan Frequency.Monthly)

/-- Keep the first option when present, else the second (the shape of the
adhoc scan's accumulator update). -/
def optOr : Option AdhocRow → Option AdhocRow → Option AdhocRow
  | some a, _ => some a
  | none, b => b

/- ------------------------------------------------------------------ -/
/- Rounding lemmas                                                     -/
/- ------------------------------------------------------------------ -/

lemma roundHalfEven_intCast (m : ℤ) : roundHalfEven (m : ℚ) = m := by
  unfold roundHalfEven
  rw [Int.floor_intCast]
  norm_num

lemma roundHalfEven_zero : roundHalfEven 0 = 0 := by
  simpa using roundHalfEven_intCast 0

lemma roundHalfEven_nonneg {q : ℚ} (h : 0 ≤ q) : 0 ≤ roundHalfEven q := by
  have hf : (0 : ℤ) ≤ ⌊q⌋ := Int.floor_nonneg.mpr h
  unfold roundHalfEven
  split_ifs <;> omega

lemma pyRound_zero (n : ℕ) : pyRound 0 n = 0 := by
  simp [pyRound, roundHalfEven_zero]

lemma pyRound_nonneg {q : ℚ} (n : ℕ) (h : 0 ≤ q) : 0 ≤ pyRound q n := by
  unfold pyRound
  apply div_nonneg
  · exact_mod_cast roundHalfEven_nonneg (by positivity)
  · positivity

/-- A value already produced by pyRound is a fixed point of pyRound. -/
lemma pyRound_idem (q : ℚ) (n : ℕ) : pyRound (pyRound q n) n = pyRound q n := by
  have h10 : ((10 : ℚ) ^ n) ≠ 0 := by positivity
  unfold pyRound
  rw [div_mul_cancel₀ _ h10, roundHalfEven_intCast]

/- ------------------------------------------------------------------ -/
/- Schedule access lemmas                                              -/
/- ------------------------------------------------------------------ -/

lemma build_schedule_parsed {P : Params} {f : Frequency}
    (hf : parseFrequency P.frequency = some f) :
    build_schedule P = some (sched (mkCtx P f)) := by
  simp [build_schedule, hf]

lemma sched_length (c : Ctx) : (sched c).length = c.P.num_periods + 1 := by
  simp [sched]

lemma sched_get (c : Ctx) (i : ℕ) (hi : i < (sched c).length) :
    (sched c).get ⟨i, hi⟩ = rowAt c i := by
  simp [sched]

@[simp] lemma buildRow_zero_period (c : Ctx) (b : ℚ) : (buildRow c 0 b).period = 0 := rfl
@[simp] lemma buildRow_zero_days (c : Ctx) (b : ℚ) : (buildRow c 0 b).days = 0 := rfl
@[simp] lemma buildRow_zero_beg (c : Ctx) (b : ℚ) : (buildRow c 0 b).beginning_bal = 0 := rfl
@[simp] lemma buildRow_zero_draws (c : Ctx) (b : ℚ) :
    (buildRow c 0 b).draws = c.P.loan_amount := rfl
@[simp] lemma buildRow_zero_amort (c : Ctx) (b : ℚ) : (buildRow c 0 b).amortization = 0 := rfl
@[simp] lemma buildRow_zero_interest (c : Ctx) (b : ℚ) : (buildRow c 0 b).interest = 0 := rfl
@[simp] lemma buildRow_zero_upfront (c : Ctx) (b : ℚ) :
    (buildRow c 0 b).upfront_fee = c.P.loan_amount * c.P.upfront_fee_rate := rfl
@[simp] lemma buildRow_zero_commit (c : Ctx) (b : ℚ) : (buildRow c 0 b).commitment_fee = 0 := rfl
@[simp] lemma buildRow_zero_ending (c : Ctx) (b : ℚ) :
    (buildRow c 0 b).ending_bal = c.P.loan_amount := rfl

@[simp] lemma buildRow_succ_period (c : Ctx) (q : ℕ) (b : ℚ) :
    (buildRow c (q + 1) b).period = q + 1 := rfl
@[simp] lemma buildRow_succ_days (c : Ctx) (q : ℕ) (b : ℚ) :
    (buildRow c (q + 1) b).days = daysOf c (q + 1) := rfl
@[simp] lemma buildRow_succ_beg (c : Ctx) (q : ℕ) (b : ℚ) :
    (buildRow c (q + 1) b).beginning_bal = b := rfl
@[simp] lemma buildRow_succ_draws (c : Ctx) (q : ℕ) (b : ℚ) :
    (buildRow c (q + 1) b).draws = 0 := rfl
@[simp] lemma buildRow_succ_amort (c : Ctx) (q : ℕ) (b : ℚ) :
    (buildRow c (q + 1) b).amortization = pyRound (amortOf c (q + 1) b) 6 := rfl
@[simp] lemma buildRow_succ_interest (c : Ctx) (q : ℕ) (b : ℚ) :
    (buildRow c (q + 1) b).interest = pyRound (interestOf c (q + 1) b) 6 := rfl
@[simp] lemma buildRow_succ_upfront (c : Ctx) (q : ℕ) (b : ℚ) :
    (buildRow c (q + 1) b).upfront_fee = 0 := rfl
@[simp] lemma buildRow_succ_commit (c : Ctx) (q : ℕ) (b : ℚ) :
    (buildRow c (q + 1) b).commitment_fee = pyRound (commitFeeOf c (q + 1) b) 6 := rfl
@[simp] lemma buildRow_succ_ending (c : Ctx) (q : ℕ) (b : ℚ) :
    (buildRow c (q + 1) b).ending_bal =
      pyRound (max (b + 0 - amortOf c (q + 1) b) 0) 6 := rfl

@[simp] lemma mkCtx_P (P : Params) (f : Frequency) : (mkCtx P f).P = P := rfl
@[simp] lemma mkCtx_fm (P : Params) (f : Frequency) : (mkCtx P f).fm = freqMonths f := rfl
@[simp] lemma mkCtx_grace (P : Params) (f : Frequency) :
    (mkCtx P f).grace = P.grace_periods.getD (P.num_periods : ℤ) := rfl
@[simp] lemma mkCtx_pmt (P : Params) (f : Frequency) :
    (mkCtx P f).pmt = mortgagePmt P (freqMonths f) := rfl
@[simp] lemma mkCtx_r (P : Params) (f : Frequency) :
    (mkCtx P f).r = mortgageR P (freqMonths f) := rfl

lemma rowAt_zero_def (c : Ctx) : rowAt c 0 = buildRow c 0 0 := rfl

lemma rowAt_succ_def (c : Ctx) (p : ℕ) :
    rowAt c (p + 1) = buildRow c (p + 1) (rowAt c p).ending_bal := rfl

@[simp] lemma rowAt_period (c : Ctx) (p : ℕ) : (rowAt c p).period = p := by
  cases p <;> rfl

lemma rowAt_draws (c : Ctx) (p : ℕ) :
    (rowAt c p).draws = if p = 0 then c.P.loan_amount else 0 := by
  cases p <;> simp [rowAt_zero_def, rowAt_succ_def]

lemma rowAt_ending_nonneg (c : Ctx) (h : 0 ≤ c.P.loan_amount) (p : ℕ) :
    0 ≤ (rowAt c p).ending_bal := by
  cases p with
  | zero => simpa [rowAt_zero_def] using h
  | succ q =>
    rw [rowAt_succ_def, buildRow_succ_ending]
    exact pyRound_nonneg _ (le_max_right _ _)

lemma rowAt_beg_succ (c : Ctx) (p : ℕ) :
    (rowAt c (p + 1)).beginning_bal = (rowAt c p).ending_bal := by
  rw [rowAt_succ_def, buildRow_succ_beg]

/- ------------------------------------------------------------------ -/
/- C1                                                                  -/
/- ------------------------------------------------------------------ -/

/-- C1: for every valid LoanTerms input (recognized frequency, non-negative
loan amount), build_schedule returns exactly num_periods+1 rows; row 0 has
beginning_bal = 0, draws = loan_amount and ending_bal = loan_amount; every
later row has draws = 0; every row's ending_bal is ≥ 0; and every later
row's ending_bal is the 6-decimal rounding of
max(beginning_bal + draws - amortization, 0), repayment capped to the
remaining balance. -/
theorem C1_schedule_shape (P : Params) (f : Frequency)
    (hf : parseFrequency P.frequency = some f) (hloan : 0 ≤ P.loan_amount)
    (s : List ScheduleRow) (hs : build_schedule P = some s) :
    s.length = P.num_periods + 1 ∧
    (∀ h0 : 0 < s.length,
      (s.get ⟨0, h0⟩).beginning_bal = 0 ∧
      (s.get ⟨0, h0⟩).draws = P.loan_amount ∧
      (s.get ⟨0, h0⟩).ending_bal = P.loan_amount) ∧
    (∀ i, ∀ hi : i < s.length, 1 ≤ i → (s.get ⟨i, hi⟩).draws = 0) ∧
    (∀ i, ∀ hi : i < s.length, 0 ≤ (s.get ⟨i, hi⟩).ending_bal) ∧
    (∀ i, ∀ hi : i < s.length, 1 ≤ i →
      (s.get ⟨i, hi⟩).ending_bal =
        pyRound (max ((s.get ⟨i, hi⟩).beginning_bal + (s.get ⟨i, hi⟩).draws -
          amortOf (mkCtx P f) i (s.get ⟨i, hi⟩).beginning_bal) 0) 6) := by
  have hs' : s = sched (mkCtx P f) := by
    have h2 := build_schedule_parsed hf
    rw [hs] at h2
    exact Option.some_inj.mp h2
  subst hs'
  refine ⟨sched_length _, ?_, ?_, ?_, ?_⟩
  · intro h0
    simp only [sched_get]
    simp [rowAt_zero_def]
  · intro i hi h1
    simp only [sched_get]
    obtain ⟨q, rfl⟩ : ∃ q, i = q + 1 := ⟨i - 1, by omega⟩
    simp [rowAt_succ_def]
  · intro i hi
    simp only [sched_get]
    exact rowAt_ending_nonneg _ hloan i
  · intro i hi h1
    simp only [sched_get]
    obtain ⟨q, rfl⟩ : ∃ q, i = q + 1 := ⟨i - 1, by omega⟩
    simp [rowAt_succ_def]

/-- Witness for C1, instantiated at the Bullet/Quarterly example input. -/
theorem C1_schedule_shape_witness :
    (sched (mkCtx exBulletQ Frequency.Quarterly)).length = exBulletQ.num_periods + 1 := by
  have hf : parseFrequency exBulletQ.frequency = some Frequency.Quarterly := by
    with_unfolding_all rfl
  have hl : (0 : ℚ) ≤ exBulletQ.loan_amount := by with_unfolding_all decide
  exact (C1_schedule_shape exBulletQ Frequency.Quarterly hf hl
    (sched (mkCtx exBulletQ Frequency.Quarterly)) (build_schedule_parsed hf)).1

/- ------------------------------------------------------------------ -/
/- C10                                                                 -/
/- ------------------------------------------------------------------ -/

lemma sched_ne_nil (c : Ctx) : sched c ≠ [] := by
  apply List.ne_nil_of_length_pos
  rw [sched_length]
  omega

lemma sched_mem_row (c : Ctx) {row : ScheduleRow} (hr : row ∈ sched c) :
    ∃ i, i < c.P.num_periods + 1 ∧ row = rowAt c i := by
  unfold sched at hr
  obtain ⟨i, hi, rfl⟩ := List.mem_map.mp hr
  exact ⟨i, List.mem_range.mp hi, rfl⟩

lemma sched_draws_sum (c : Ctx) :
    ((sched c).map (fun row => row.draws)).sum = c.P.loan_amount := by
  have hz : ∀ (l : List ℕ), (∀ i ∈ l, i ≠ 0) →
      ((l.map (rowAt c)).map (fun row => row.draws)).sum = 0 := by
    intro l
    induction l with
    | nil => simp
    | cons a t ih =>
      intro h
      simp only [List.map_cons, List.sum_cons]
      rw [ih (fun i hi => h i (List.mem_cons_of_mem _ hi))]
      have ha := h a (List.mem_cons_self a t)
      rw [rowAt_draws]
      simp [ha]
  unfold sched
  rw [List.range_succ_eq_map, List.map_cons, List.map_cons, List.sum_cons]
  rw [hz ((List.range c.P.num_periods).map Nat.succ) ?hne]
  case hne =>
    intro i hi
    obtain ⟨j, _, rfl⟩ := List.mem_map.mp hi
    exact Nat.succ_ne_zero j
  rw [rowAt_draws]
  simp

/-- C10: on every engine-built schedule from valid LoanTerms, the total
draws equal loan_amount exactly, and validate reports balance_ok = true
and draw_status = "OK" — the warning flags are unreachable. -/
theorem C10_validator_pass (P : Params) (f : Frequency)
    (hf : parseFrequency P.frequency = some f) (hloan : 0 ≤ P.loan_amount)
    (s : List ScheduleRow) (hs : build_schedule P = some s) :
    (s.map (fun row => row.draws)).sum = P.loan_amount ∧
    ∃ v, validate s P.loan_amount = some v ∧
      v.balance_ok = true ∧ v.draw_status = "OK" := by
  have hs' : s = sched (mkCtx P f) := by
    have h2 := build_schedule_parsed hf
    rw [hs] at h2
    exact Option.some_inj.mp h2
  subst hs'
  have hsum : ((sched (mkCtx P f)).map (fun row => row.draws)).sum = P.loan_amount := by
    simpa using sched_draws_sum (mkCtx P f)
  refine ⟨hsum, ?_⟩
  have hne := sched_ne_nil (mkCtx P f)
  have hlast := List.getLast?_eq_getLast (sched (mkCtx P f)) hne
  have hany : (sched (mkCtx P f)).any
      (fun row => decide (row.ending_bal < -(1/100))) = false := by
    rw [List.any_eq_false]
    intro row hr
    obtain ⟨i, _, rfl⟩ := sched_mem_row _ hr
    have h0 := rowAt_ending_nonneg (mkCtx P f) (by simpa using hloan) i
    simp only [decide_eq_true_eq, not_lt]
    linarith
  unfold validate
  rw [hlast]
  refine ⟨_, rfl, ?_, ?_⟩
  · show (!(sched (mkCtx P f)).any fun row => decide (row.ending_bal < -(1/100))) = true
    rw [hany]
    rfl
  · show (if _ ≤ (1 : ℚ) then "OK" else "Review Draw") = "OK"
    rw [hsum]
    simp

/-- Witness for C10 at the Bullet/Quarterly example input. -/
theorem C10_validator_pass_witness :
    ∃ v, validate (sched (mkCtx exBulletQ Frequency.Quarterly)) exBulletQ.loan_amount = some v ∧
      v.balance_ok = true ∧ v.draw_status = "OK" := by
  have hf : parseFrequency exBulletQ.frequency = some Frequency.Quarterly := by
    with_unfolding_all rfl
  have hl : (0 : ℚ) ≤ exBulletQ.loan_amount := by with_unfolding_all decide
  exact (C10_validator_pass exBulletQ Frequency.Quarterly hf hl
    (sched (mkCtx exBulletQ Frequency.Quarterly)) (build_schedule_parsed hf)).2

/- ------------------------------------------------------------------ -/
/- C2                                                                  -/
/- ------------------------------------------------------------------ -/

lemma validate_sched_exists (c : Ctx) (loan : ℚ) :
    ∃ v, validate (sched c) loan = some v := by
  have hne := sched_ne_nil c
  have hlast := List.getLast?_eq_getLast (sched c) hne
  unfold validate
  rw [hlast]
  exact ⟨_, rfl⟩

/-- C2, amended: an unrecognized frequency makes /calculate return the
structured failure (the KeyError is caught at the boundary), but an
unrecognized amortization_profile does NOT fail — build_schedule treats it
as zero scheduled amortization and /calculate returns a success payload. -/
theorem C2_invalid_enum (solver : IrrSolver) (P : Params) :
    (parseFrequency P.frequency = none →
      calculate solver P = CalcResponse.failure ("KeyError: " ++ P.frequency)) ∧
    (∀ f, parseFrequency P.frequency = some f →
      P.amortization_profile ≠ "Bullet" → P.amortization_profile ≠ "Ad-hoc" →
      P.amortization_profile ≠ "Mortgage" →
      isSuccessResp (calculate solver P) = true ∧
      ∃ s, build_schedule P = some s ∧
        ∀ row ∈ s, 1 ≤ row.period → row.amortization = 0) := by
  constructor
  · intro hn
    unfold calculate
    rw [hn]
  · intro f hf h1 h2 h3
    have hb := build_schedule_parsed hf
    obtain ⟨v, hv⟩ := validate_sched_exists (mkCtx P f) P.loan_amount
    refine ⟨?_, sched (mkCtx P f), hb, ?_⟩
    · unfold calculate
      rw [hf, hb]
      dsimp only
      rw [hv]
      rfl
    · intro row hr hp
      obtain ⟨i, hi, rfl⟩ := sched_mem_row _ hr
      rw [rowAt_period] at hp
      obtain ⟨q, rfl⟩ : ∃ q, i = q + 1 := ⟨i - 1, by omega⟩
      rw [rowAt_succ_def, buildRow_succ_amort]
      have hz : amortOf (mkCtx P f) (q + 1) ((rowAt (mkCtx P f) q).ending_bal) = 0 := by
        unfold amortOf
        simp only [mkCtx_P]
        rw [if_neg h1, if_neg h2, if_neg h3]
      rw [hz, pyRound_zero]

/-- Counterexample to C2 as stated: a concrete input whose
amortization_profile is none of the recognized values, yet /calculate
returns a success payload. -/
theorem C2_invalid_enum_cex :
    exUnknownProfile.amortization_profile ≠ "Bullet" ∧
    exUnknownProfile.amortization_profile ≠ "Ad-hoc" ∧
    exUnknownProfile.amortization_profile ≠ "Mortgage" ∧
    isSuccessResp (calculate (fun _ => none) exUnknownProfile) = true := by
  with_unfolding_all decide

/-- Witness for C2 at concrete inputs: a bad frequency fails, a bad
profile succeeds. -/
theorem C2_invalid_enum_witness :
    (calculate (fun _ => none) exBadFreq =
      CalcResponse.failure ("KeyError: " ++ exBadFreq.frequency)) ∧
    isSuccessResp (calculate (fun _ => none) exUnknownProfile) = true := by
  constructor
  · exact (C2_invalid_enum (fun _ => none) exBadFreq).1 (by with_unfolding_all rfl)
  · exact ((C2_invalid_enum (fun _ => none) exUnknownProfile).2 Frequency.Quarterly
      (by with_unfolding_all rfl) (by decide) (by decide) (by decide)).1

/- ------------------------------------------------------------------ -/
/- C3                                                                  -/
/- ------------------------------------------------------------------ -/

/-- Ending balances of periods ≥ 1 are pyRound images, hence fixed points
of 6-decimal rounding. -/
lemma rowAt_succ_ending_fixed (c : Ctx) (q : ℕ) :
    pyRound ((rowAt c (q + 1)).ending_bal) 6 = (rowAt c (q + 1)).ending_bal := by
  rw [rowAt_succ_def, buildRow_succ_ending, pyRound_idem]

/-- C3, amended: for Bullet profile, amortization is 0 in every period
1..num_periods-1; the final period's recorded amortization is the
6-decimal rounding of its beginning balance — equal to the beginning
balance exactly whenever num_periods ≥ 2 (that balance is already
rounded), but not in general at num_periods = 1 when loan_amount carries
more than 6 decimals; the final ending_bal is 0; and the spec's concrete
example (loan 100, 4 quarterly periods) behaves exactly as stated. -/
theorem C3_bullet (P : Params) (f : Frequency)
    (hf : parseFrequency P.frequency = some f)
    (hb : P.amortization_profile = "Bullet")
    (s : List ScheduleRow) (hs : build_schedule P = some s) :
    (∀ p, ∀ hp : p < s.length, 1 ≤ p → p ≠ P.num_periods →
      (s.get ⟨p, hp⟩).amortization = 0) ∧
    (∀ hN : P.num_periods < s.length, 1 ≤ P.num_periods →
      (s.get ⟨P.num_periods, hN⟩).amortization =
        pyRound (s.get ⟨P.num_periods, hN⟩).beginning_bal 6 ∧
      (2 ≤ P.num_periods →
        (s.get ⟨P.num_periods, hN⟩).amortization =
          (s.get ⟨P.num_periods, hN⟩).beginning_bal) ∧
      (s.get ⟨P.num_periods, hN⟩).ending_bal = 0) ∧
    ((build_schedule exBulletQ).bind (fun l => l[1]?)).map
      (fun row => row.amortization) = some 0 ∧
    ((build_schedule exBulletQ).bind (fun l => l[2]?)).map
      (fun row => row.amortization) = some 0 ∧
    ((build_schedule exBulletQ).bind (fun l => l[3]?)).map
      (fun row => row.amortization) = some 0 ∧
    ((build_schedule exBulletQ).bind (fun l => l[4]?)).map
      (fun row => (row.amortization, row.ending_bal)) = some (100, 0) := by
  have hs' : s = sched (mkCtx P f) := by
    have h2 := build_schedule_parsed hf
    rw [hs] at h2
    exact Option.some_inj.mp h2
  subst hs'
  refine ⟨?_, ?_, ?_, ?_, ?_, ?_⟩
  · intro p hp h1 hne
    simp only [sched_get]
    obtain ⟨q, rfl⟩ : ∃ q, p = q + 1 := ⟨p - 1, by omega⟩
    rw [rowAt_succ_def, buildRow_succ_amort]
    have hz : amortOf (mkCtx P f) (q + 1) ((rowAt (mkCtx P f) q).ending_bal) = 0 := by
      unfold amortOf
      simp only [mkCtx_P]
      rw [if_pos hb, if_neg hne]
    rw [hz, pyRound_zero]
  · intro hN h1
    simp only [sched_get]
    obtain ⟨q, hq⟩ : ∃ q, P.num_periods = q + 1 := ⟨P.num_periods - 1, by omega⟩
    rw [hq]
    rw [rowAt_succ_def, buildRow_succ_amort, buildRow_succ_beg, buildRow_succ_ending]
    have ha : amortOf (mkCtx P f) (q + 1) ((rowAt (mkCtx P f) q).ending_bal) =
        (rowAt (mkCtx P f) q).ending_bal := by
      unfold amortOf
      simp only [mkCtx_P]
      rw [if_pos hb, if_pos (by omega : q + 1 = P.num_periods)]
    refine ⟨by rw [ha], ?_, ?_⟩
    · intro h2
      rw [ha]
      obtain ⟨r, hr⟩ : ∃ r, q = r + 1 := ⟨q - 1, by omega⟩
      rw [hr]
      exact rowAt_succ_ending_fixed (mkCtx P f) r
    · rw [ha]
      have : (rowAt (mkCtx P f) q).ending_bal + 0 - (rowAt (mkCtx P f) q).ending_bal = 0 := by
        ring
      rw [this]
      simp [pyRound_zero]
  · with_unfolding_all rfl
  · with_unfolding_all rfl
  · with_unfolding_all rfl
  · with_unfolding_all rfl

/-- Counterexample to C3 as stated: with loan_amount = 0.0000005 and a
single period, the final (recorded) amortization is round6(0.0000005) = 0,
not the period's beginning balance 0.0000005. -/
theorem C3_bullet_cex :
    exBulletTiny.amortization_profile = "Bullet" ∧
    ((build_schedule exBulletTiny).bind (fun l => l[1]?)).map
      (fun row => decide (row.amortization = row.beginning_bal)) = some false := by
  with_unfolding_all decide

/-- Witness for C3: the spec's Bullet example, final row pays 100 and ends
at balance 0. -/
theorem C3_bullet_witness :
    ((build_schedule exBulletQ).bind (fun l => l[4]?)).map
      (fun row => (row.amortization, row.ending_bal)) = some (100, 0) := by
  have hf : parseFrequency exBulletQ.frequency = some Frequency.Quarterly := by
    with_unfolding_all rfl
  exact (C3_bullet exBulletQ Frequency.Quarterly hf rfl
    (sched (mkCtx exBulletQ Frequency.Quarterly)) (build_schedule_parsed hf)).2.2.2.2.2

/- ------------------------------------------------------------------ -/
/- C9                                                                  -/
/- ------------------------------------------------------------------ -/

/-- C9, amended: in every period p ≥ 1, the computed monetary values
(interest, commitment fee, amortization, ending balance) are stored as
their own 6-decimal roundings, and each period's beginning balance is the
previous period's ending balance; period 0's upfront fee and ending
balance are recorded unrounded. -/
theorem C9_rounding (P : Params) (f : Frequency)
    (hf : parseFrequency P.frequency = some f)
    (s : List ScheduleRow) (hs : build_schedule P = some s) :
    (∀ p, ∀ hp : p < s.length, 1 ≤ p →
      (s.get ⟨p, hp⟩).interest = pyRound (s.get ⟨p, hp⟩).interest 6 ∧
      (s.get ⟨p, hp⟩).commitment_fee = pyRound (s.get ⟨p, hp⟩).commitment_fee 6 ∧
      (s.get ⟨p, hp⟩).amortization = pyRound (s.get ⟨p, hp⟩).amortization 6 ∧
      (s.get ⟨p, hp⟩).ending_bal = pyRound (s.get ⟨p, hp⟩).ending_bal 6) ∧
    (∀ p, ∀ hp : p + 1 < s.length,
      (s.get ⟨p + 1, hp⟩).beginning_bal =
        (s.get ⟨p, Nat.lt_of_succ_lt hp⟩).ending_bal) := by
  have hs' : s = sched (mkCtx P f) := by
    have h2 := build_schedule_parsed hf
    rw [hs] at h2
    exact Option.some_inj.mp h2
  subst hs'
  constructor
  · intro p hp h1
    simp only [sched_get]
    obtain ⟨q, rfl⟩ : ∃ q, p = q + 1 := ⟨p - 1, by omega⟩
    rw [rowAt_succ_def, buildRow_succ_amort, buildRow_succ_interest,
      buildRow_succ_commit, buildRow_succ_ending]
    exact ⟨(pyRound_idem _ 6).symm, (pyRound_idem _ 6).symm,
      (pyRound_idem _ 6).symm, (pyRound_idem _ 6).symm⟩
  · intro p hp
    simp only [sched_get]
    exact rowAt_beg_succ (mkCtx P f) p

/-- Counterexample to C9 as stated: row 0's upfront fee (loan_amount ×
upfront_fee_rate = 0.0000001) is not equal to its own 6-decimal rounding,
so not every monetary value is rounded at the point of computation. -/
theorem C9_rounding_cex :
    ((build_schedule exUpfrontTiny).bind (fun l => l[0]?)).map
      (fun row => decide (row.upfront_fee = pyRound row.upfront_fee 6)) = some false := by
  with_unfolding_all decide

lemma exSchedQ_len1 : 1 < exSchedQ.length := by with_unfolding_all decide

/-- Witness for C9 at the Bullet/Quarterly example: row 1's interest is a
fixed point of 6-decimal rounding. -/
theorem C9_rounding_witness :
    (exSchedQ.get ⟨1, exSchedQ_len1⟩).interest =
      pyRound (exSchedQ.get ⟨1, exSchedQ_len1⟩).interest 6 := by
  have hf : parseFrequency exBulletQ.frequency = some Frequency.Quarterly := by
    with_unfolding_all rfl
  exact ((C9_rounding exBulletQ Frequency.Quarterly hf exSchedQ
    (build_schedule_parsed hf)).1 1 exSchedQ_len1 (by omega)).1

/- ------------------------------------------------------------------ -/
/- C5                                                                  -/
/- ------------------------------------------------------------------ -/

/-- The sequential margin computation equals the claim's additive form. -/
lemma marginOf_eq_add (c : Ctx) (p : ℕ) :
    marginOf c p =
      (if (p : ℤ) ≤ c.P.draw_period then c.P.margin_draw else c.P.margin_after) +
      (if 0 < c.P.step_up_period ∧ c.P.step_up_period ≤ (p : ℤ) then c.P.step_up else 0) := by
  unfold marginOf
  split_ifs <;> ring

/-- C5: for every row p ≥ 1, when p ≤ grace_periods (defaulting to
num_periods) and the beginning balance is positive, the recorded interest
is round6(margin × beginning_bal × days/360) with margin = (margin_draw if
p ≤ draw_period else margin_after) plus step_up once a positive
step_up_period is reached; otherwise the interest is 0. -/
theorem C5_interest (P : Params) (f : Frequency)
    (hf : parseFrequency P.frequency = some f)
    (s : List ScheduleRow) (hs : build_schedule P = some s)
    (p : ℕ) (hp : p < s.length) (h1 : 1 ≤ p) :
    ((p : ℤ) ≤ P.grace_periods.getD (P.num_periods : ℤ) ∧
        0 < (s.get ⟨p, hp⟩).beginning_bal →
      (s.get ⟨p, hp⟩).interest =
        pyRound
          (((if (p : ℤ) ≤ P.draw_period then P.margin_draw else P.margin_after) +
            (if 0 < P.step_up_period ∧ P.step_up_period ≤ (p : ℤ) then P.step_up else 0)) *
            (s.get ⟨p, hp⟩).beginning_bal * (((s.get ⟨p, hp⟩).days : ℚ) / 360)) 6) ∧
    (¬ ((p : ℤ) ≤ P.grace_periods.getD (P.num_periods : ℤ) ∧
        0 < (s.get ⟨p, hp⟩).beginning_bal) →
      (s.get ⟨p, hp⟩).interest = 0) := by
  have hs' : s = sched (mkCtx P f) := by
    have h2 := build_schedule_parsed hf
    rw [hs] at h2
    exact Option.some_inj.mp h2
  subst hs'
  simp only [sched_get]
  obtain ⟨q, rfl⟩ : ∃ q, p = q + 1 := ⟨p - 1, by omega⟩
  rw [rowAt_succ_def, buildRow_succ_interest, buildRow_succ_beg, buildRow_succ_days]
  constructor
  · intro hcond
    unfold interestOf
    rw [if_pos (by simpa [mkCtx_grace] using hcond)]
    rw [marginOf_eq_add]
    simp only [mkCtx_P]
  · intro hcond
    unfold interestOf
    rw [if_neg (by simpa [mkCtx_grace] using hcond)]
    exact pyRound_zero 6

/-- Witness for C5: period 1 of the Bullet/Quarterly example accrues
round6(0.04 × 100 × 91/360). -/
theorem C5_interest_witness :
    (exSchedQ.get ⟨1, exSchedQ_len1⟩).interest =
      pyRound
        (((if (1 : ℤ) ≤ exBulletQ.draw_period then exBulletQ.margin_draw
            else exBulletQ.margin_after) +
          (if 0 < exBulletQ.step_up_period ∧ exBulletQ.step_up_period ≤ (1 : ℤ)
            then exBulletQ.step_up else 0)) *
          (exSchedQ.get ⟨1, exSchedQ_len1⟩).beginning_bal *
          (((exSchedQ.get ⟨1, exSchedQ_len1⟩).days : ℚ) / 360)) 6 := by
  have hf : parseFrequency exBulletQ.frequency = some Frequency.Quarterly := by
    with_unfolding_all rfl
  exact (C5_interest exBulletQ Frequency.Quarterly hf exSchedQ
    (build_schedule_parsed hf) 1 exSchedQ_len1 (by omega)).1
    (by with_unfolding_all decide)

/- ------------------------------------------------------------------ -/
/- C4                                                                  -/
/- ------------------------------------------------------------------ -/

/-- C4, amended: the precomputed PMT follows the annuity formula
(loan × r / (1 − (1+r)^−n)) for r > 0, equals loan / n when r = 0 and 0
when n ≤ 0; for draw_period < p < num_periods the period's principal is
max(0, min(PMT − r×beginning_bal, beginning_bal)); and the final period
clears its beginning balance provided it lies past the draw period
(draw_period < num_periods) — not unconditionally. -/
theorem C4_mortgage (P : Params) (f : Frequency)
    (hm : P.amortization_profile = "Mortgage") :
    (mortgageR P (freqMonths f) = P.mortgage_rate / (12 / ((freqMonths f : ℤ) : ℚ))) ∧
    (nAmort P (freqMonths f) =
      roundHalfEven (P.mortgage_amort_years * (12 / ((freqMonths f : ℤ) : ℚ)))) ∧
    (nAmort P (freqMonths f) ≤ 0 → mortgagePmt P (freqMonths f) = 0) ∧
    (0 < nAmort P (freqMonths f) → mortgageR P (freqMonths f) = 0 →
      mortgagePmt P (freqMonths f) = P.loan_amount / ((nAmort P (freqMonths f) : ℤ) : ℚ)) ∧
    (0 < nAmort P (freqMonths f) → 0 < mortgageR P (freqMonths f) →
      mortgagePmt P (freqMonths f) =
        P.loan_amount * mortgageR P (freqMonths f) /
          (1 - ((1 + mortgageR P (freqMonths f)) ^ (nAmort P (freqMonths f)).toNat)⁻¹)) ∧
    (∀ p : ℕ, ∀ beg : ℚ, P.draw_period < (p : ℤ) → p < P.num_periods →
      amortOf (mkCtx P f) p beg =
        max 0 (min (mortgagePmt P (freqMonths f) - mortgageR P (freqMonths f) * beg) beg)) ∧
    (∀ beg : ℚ, P.draw_period < (P.num_periods : ℤ) →
      amortOf (mkCtx P f) P.num_periods beg = beg) := by
  have hnb : ¬ (P.amortization_profile = "Bullet") := by rw [hm]; decide
  have hna : ¬ (P.amortization_profile = "Ad-hoc") := by rw [hm]; decide
  refine ⟨?_, rfl, ?_, ?_, ?_, ?_, ?_⟩
  · unfold mortgageR
    rw [if_pos hm]
  · intro hn
    unfold mortgagePmt
    rw [if_pos hm, if_neg (by omega)]
  · intro hn hr
    unfold mortgagePmt
    rw [if_pos hm, if_pos hn, if_neg (by rw [hr]; exact lt_irrefl 0)]
  · intro hn hr
    unfold mortgagePmt
    rw [if_pos hm, if_pos hn, if_pos hr]
  · intro p beg hdraw hlt
    unfold amortOf
    simp only [mkCtx_P, mkCtx_pmt, mkCtx_r]
    rw [if_neg hnb, if_neg hna, if_pos hm, if_neg (not_le.mpr hdraw),
      if_neg (by omega : ¬ (p = P.num_periods))]
  · intro beg hdraw
    unfold amortOf
    simp only [mkCtx_P, mkCtx_pmt, mkCtx_r]
    rw [if_neg hnb, if_neg hna, if_pos hm, if_neg (not_le.mpr hdraw)]
    simp

/-- Counterexample to C4 as stated: when the final period is still inside
the draw period, its amortization is 0, not its beginning balance. -/
theorem C4_mortgage_cex :
    exMortDraw.amortization_profile = "Mortgage" ∧
    exMortDraw.draw_period ≤ (exMortDraw.num_periods : ℤ) ∧
    ((build_schedule exMortDraw).bind (fun l => l[1]?)).map
      (fun row => decide (row.amortization = row.beginning_bal)) = some false := by
  with_unfolding_all decide

/-- Witness for C4: with rate 0 and n = 12, PMT is loan / 12. -/
theorem C4_mortgage_witness :
    mortgagePmt exMortgage (freqMonths Frequency.Monthly) =
      exMortgage.loan_amount / ((nAmort exMortgage (freqMonths Frequency.Monthly) : ℤ) : ℚ) :=
  (C4_mortgage exMortgage Frequency.Monthly rfl).2.2.2.1
    (by with_unfolding_all decide) (by with_unfolding_all rfl)

/- ------------------------------------------------------------------ -/
/- C8                                                                  -/
/- ------------------------------------------------------------------ -/

/-- The WAL accumulation loop equals a sum over the rows with positive
amortization. -/
lemma foldl_pos_amort_sum (l : List ScheduleRow) (g : ScheduleRow → ℚ) (a : ℚ) :
    l.foldl (fun acc row => if 0 < row.amortization then acc + g row else acc) a =
      a + ((l.filter (fun row => decide (0 < row.amortization))).map g).sum := by
  induction l generalizing a with
  | nil => simp
  | cons r t ih =>
    simp only [List.foldl_cons, List.filter_cons]
    by_cases h : 0 < r.amortization
    · rw [if_pos h, ih]
      simp [h]
      ring
    · rw [if_neg h, ih]
      simp [h]

lemma sum_map_div_right (l : List ScheduleRow) (g : ScheduleRow → ℚ) (T : ℚ) :
    (l.map (fun row => g row / T)).sum = (l.map g).sum / T := by
  induction l with
  | nil => simp
  | cons r t ih => simp [ih, add_div]

/-- C8: calculate_wal is [Σ over rows with amortization > 0 of
(period × frequency_months × amortization)] ÷ total_amortization ÷ 12,
rounded to 4 decimals, and is 0 whenever total amortization is 0. -/
theorem C8_wal (schedule : List ScheduleRow) (fm : ℤ) :
    ((schedule.map (fun row => row.amortization)).sum = 0 →
      calculate_wal schedule fm = 0) ∧
    ((schedule.map (fun row => row.amortization)).sum ≠ 0 →
      calculate_wal schedule fm =
        pyRound
          ((((schedule.filter (fun row => decide (0 < row.amortization))).map
              (fun row => (row.period : ℚ) * (fm : ℚ) * row.amortization)).sum /
            (schedule.map (fun row => row.amortization)).sum) / 12) 4) := by
  constructor
  · intro h
    unfold calculate_wal
    rw [if_pos h]
  · intro h
    unfold calculate_wal
    rw [if_neg h, foldl_pos_amort_sum, zero_add]
    have hfg : (fun row : ScheduleRow => ((row.period : ℚ) * (fm : ℚ)) *
        (row.amortization / (schedule.map (fun row => row.amortization)).sum)) =
        (fun row : ScheduleRow => ((row.period : ℚ) * (fm : ℚ) * row.amortization) /
          (schedule.map (fun row => row.amortization)).sum) := by
      funext row
      ring
    rw [hfg, sum_map_div_right]

/-- Witness for C8 on a concrete one-row schedule with positive total
amortization. -/
theorem C8_wal_witness :
    calculate_wal [exRowW] 3 =
      pyRound
        (((([exRowW].filter (fun row => decide (0 < row.amortization))).map
            (fun row => (row.period : ℚ) * ((3 : ℤ) : ℚ) * row.amortization)).sum /
          ([exRowW].map (fun row => row.amortization)).sum) / 12) 4 :=
  (C8_wal [exRowW] 3).2 (by with_unfolding_all decide)

/- ------------------------------------------------------------------ -/
/- C7                                                                  -/
/- ------------------------------------------------------------------ -/

/-- The scan loop returns its accumulator or an element of the list. -/
lemma adhocLoop_mem (t : ℤ) :
    ∀ (l : List AdhocRow) (acc : Option AdhocRow) (x : AdhocRow),
      adhocLoop t acc l = some x → acc = some x ∨ x ∈ l := by
  intro l
  induction l with
  | nil => intro acc x h; exact Or.inl h
  | cons r rs ih =>
    intro acc x h
    unfold adhocLoop at h
    by_cases hr : r.month ≤ t
    · rw [if_pos hr] at h
      rcases ih (some r) x h with h1 | h2
      · exact Or.inr (by rw [← Option.some_inj.mp h1]; exact List.mem_cons_self r rs)
      · exact Or.inr (List.mem_cons_of_mem _ h2)
    · rw [if_neg hr] at h
      exact Or.inl h

/-- adhoc_payment either returns 0 or converts the value of some table
row. -/
lemma adhoc_payment_cases (loan : ℚ) (t : ℤ) (table : List AdhocRow) (usePct : Bool) :
    adhoc_payment loan t table usePct = 0 ∨
    ∃ row ∈ table, adhoc_payment loan t table usePct =
      (if usePct then loan * (row.value / 100) else row.value) := by
  by_cases he : table = []
  · left
    unfold adhoc_payment
    rw [if_pos he]
  · unfold adhoc_payment
    rw [if_neg he]
    cases hl : adhocLoop t none (sortByMonth table) with
    | none => exact Or.inl rfl
    | some row =>
      right
      refine ⟨row, ?_, rfl⟩
      rcases adhocLoop_mem t _ none row hl with h | h
      · exact absurd h (by simp)
      · exact (List.mem_insertionSort monthLe).mp h

/-- With a zero loan, adhoc_payment is nonnegative provided percent mode
is on or all table values are nonnegative. -/
lemma adhoc_payment_nonneg_zero_loan (t : ℤ) (table : List AdhocRow) (usePct : Bool)
    (h : usePct = true ∨ ∀ r ∈ table, 0 ≤ r.value) :
    0 ≤ adhoc_payment 0 t table usePct := by
  rcases adhoc_payment_cases 0 t table usePct with h0 | ⟨row, hrow, heq⟩
  · rw [h0]
  · rw [heq]
    cases usePct with
    | true => simp
    | false =>
      simp only [Bool.false_eq_true, if_false]
      rcases h with hu | hv
      · exact absurd hu (by simp)
      · exact hv row hrow

/-- With loan_amount = 0, every schedule row is identically zero in all
monetary fields. -/
lemma rowAt_all_zero (c : Ctx) (hl : c.P.loan_amount = 0)
    (hadhoc : c.P.adhoc_use_percent = true ∨ ∀ r ∈ c.P.adhoc_table, 0 ≤ r.value) :
    ∀ p, (rowAt c p).beginning_bal = 0 ∧ (rowAt c p).ending_bal = 0 ∧
      (rowAt c p).draws = 0 ∧ (rowAt c p).interest = 0 ∧
      (rowAt c p).amortization = 0 ∧ (rowAt c p).upfront_fee = 0 ∧
      (rowAt c p).commitment_fee = 0 := by
  intro p
  induction p with
  | zero =>
    rw [rowAt_zero_def]
    refine ⟨rfl, by simpa using hl, by simpa using hl, rfl, rfl, ?_, rfl⟩
    show c.P.loan_amount * c.P.upfront_fee_rate = 0
    rw [hl, zero_mul]
  | succ q ih =>
    obtain ⟨hb, he, _⟩ := ih
    have hamz0 : amortOf c (q + 1) 0 = 0 := by
      unfold amortOf
      split_ifs
      · rfl
      · rfl
      · rw [hl]
        exact min_eq_right (adhoc_payment_nonneg_zero_loan _ _ _ hadhoc)
      · rfl
      · rfl
      · rw [mul_zero, sub_zero]
        exact max_eq_left (min_le_right _ _)
      · rfl
    have hint : interestOf c (q + 1) ((rowAt c q).ending_bal) = 0 := by
      unfold interestOf
      rw [he]
      simp
    have hcommit : commitFeeOf c (q + 1) ((rowAt c q).ending_bal) = 0 := by
      unfold commitFeeOf
      rw [he, hl]
      simp
    refine ⟨?_, ?_, rfl, ?_, ?_, rfl, ?_⟩
    · rw [rowAt_beg_succ, he]
    · rw [rowAt_succ_def, buildRow_succ_ending, he, hamz0]
      simp [pyRound_zero]
    · rw [rowAt_succ_def, buildRow_succ_interest, hint, pyRound_zero]
    · rw [rowAt_succ_def, buildRow_succ_amort, he, hamz0, pyRound_zero]
    · rw [rowAt_succ_def, buildRow_succ_commit, hcommit, pyRound_zero]

/-- C7: annualized_irr returns 0 on an all-zero series and 0 whenever the
abstracted solver (numpy_financial.irr, with None / NaN / raised
exceptions modelled as none) fails; otherwise the periodic rate times the
frequency multiplier (Monthly 12, Quarterly 4, Semiannually 2); and with
loan_amount = 0 all four yield components are 0 for every solver
behaviour. -/
theorem C7_irr_fallback (solver : IrrSolver) (cfs : List ℚ) (f : Frequency) :
    (freqMultiplier Frequency.Monthly = 12 ∧ freqMultiplier Frequency.Quarterly = 4 ∧
      freqMultiplier Frequency.Semiannually = 2) ∧
    ((∀ q ∈ cfs, q = 0) → annualized_irr solver cfs f = 0) ∧
    (solver cfs = none → annualized_irr solver cfs f = 0) ∧
    ((¬ ∀ q ∈ cfs, q = 0) → ∀ rr : ℚ, solver cfs = some rr →
      annualized_irr solver cfs f = rr * freqMultiplier f) ∧
    (∀ P : Params, ∀ fP : Frequency, ∀ s : List ScheduleRow,
      parseFrequency P.frequency = some fP → build_schedule P = some s →
      P.loan_amount = 0 →
      (P.adhoc_use_percent = true ∨ ∀ r ∈ P.adhoc_table, 0 ≤ r.value) →
      calculate_irr_components solver s P fP =
        { ir_spread := 0, upfront_impact := 0, commitment_impact := 0,
          all_in_margin := 0 }) := by
  refine ⟨⟨rfl, rfl, rfl⟩, ?_, ?_, ?_, ?_⟩
  · intro h
    unfold annualized_irr
    rw [if_pos ?hall]
    case hall =>
      rw [List.all_eq_true]
      intro q hq
      exact decide_eq_true (h q hq)
  · intro hsolver
    unfold annualized_irr
    split_ifs with hall
    · rfl
    · rw [hsolver]
  · intro hna rr hsolver
    have hb : ¬ (cfs.all (fun q => decide (q = 0)) = true) := by
      rw [List.all_eq_true]
      intro hcontra
      exact hna (fun q hq => of_decide_eq_true (hcontra q hq))
    unfold annualized_irr
    rw [if_neg hb, hsolver]
  · intro P fP s hf hs hl hadhoc
    have hs' : s = sched (mkCtx P fP) := by
      have h2 := build_schedule_parsed hf
      rw [hs] at h2
      exact Option.some_inj.mp h2
    subst hs'
    have hrows := rowAt_all_zero (mkCtx P fP) (by simpa using hl)
      (by simpa using hadhoc)
    have hzero : ∀ row ∈ sched (mkCtx P fP),
        row.interest + row.amortization - row.draws = 0 ∧
        row.upfront_fee = 0 ∧ row.commitment_fee = 0 := by
      intro row hr
      obtain ⟨i, _, rfl⟩ := sched_mem_row _ hr
      obtain ⟨_, _, hd, hi2, ha, hu, hc⟩ := hrows i
      refine ⟨?_, hu, hc⟩
      rw [hd, hi2, ha]
      ring
    have hT : (build_cashflow_arrays (sched (mkCtx P fP)) P.draw_period).T.all
        (fun q => decide (q = 0)) = true := by
      rw [List.all_eq_true]
      intro q hq
      obtain ⟨row, hrow, rfl⟩ := List.mem_map.mp hq
      obtain ⟨h1, _, _⟩ := hzero row hrow
      exact decide_eq_true h1
    have hU : (build_cashflow_arrays (sched (mkCtx P fP)) P.draw_period).U.all
        (fun q => decide (q = 0)) = true := by
      rw [List.all_eq_true]
      intro q hq
      obtain ⟨row, hrow, rfl⟩ := List.mem_map.mp hq
      obtain ⟨h1, h2, _⟩ := hzero row hrow
      exact decide_eq_true (by rw [h1, h2, add_zero])
    have hV : (build_cashflow_arrays (sched (mkCtx P fP)) P.draw_period).V.all
        (fun q => decide (q = 0)) = true := by
      rw [List.all_eq_true]
      intro q hq
      obtain ⟨row, hrow, rfl⟩ := List.mem_map.mp hq
      obtain ⟨h1, h2, h3⟩ := hzero row hrow
      exact decide_eq_true (by rw [h1, h2, h3, add_zero, add_zero])
    have hiT : annualized_irr solver
        (build_cashflow_arrays (sched (mkCtx P fP)) P.draw_period).T fP = 0 := by
      unfold annualized_irr
      rw [if_pos hT]
    have hiU : annualized_irr solver
        (build_cashflow_arrays (sched (mkCtx P fP)) P.draw_period).U fP = 0 := by
      unfold annualized_irr
      rw [if_pos hU]
    have hiV : annualized_irr solver
        (build_cashflow_arrays (sched (mkCtx P fP)) P.draw_period).V fP = 0 := by
      unfold annualized_irr
      rw [if_pos hV]
    unfold calculate_irr_components
    rw [hiT, hiU, hiV]
    simp [pyRound_zero]

/-- Witness for C7: solver failure yields 0, a solved rate is annualized
by the Quarterly multiplier, and the zero-loan example produces all-zero
yield components. -/
theorem C7_irr_fallback_witness :
    annualized_irr (fun _ => none) [1, -1] Frequency.Monthly = 0 ∧
    annualized_irr (fun _ => some (1/10)) [1, -1] Frequency.Quarterly =
      (1/10) * freqMultiplier Frequency.Quarterly ∧
    calculate_irr_components (fun _ => none) exSchedZero exZeroLoan Frequency.Monthly =
      { ir_spread := 0, upfront_impact := 0, commitment_impact := 0,
        all_in_margin := 0 } := by
  have hne : ¬ ∀ q ∈ ([1, -1] : List ℚ), q = 0 := by
    intro h
    have h1 := h 1 (List.mem_cons_self 1 [-1])
    norm_num at h1
  refine ⟨?_, ?_, ?_⟩
  · exact (C7_irr_fallback (fun _ => none) [1, -1] Frequency.Monthly).2.2.1 rfl
  · exact (C7_irr_fallback (fun _ => some (1/10)) [1, -1] Frequency.Quarterly).2.2.2.1
      hne (1/10) rfl
  · have hf : parseFrequency exZeroLoan.frequency = some Frequency.Monthly := by
      with_unfolding_all rfl
    exact (C7_irr_fallback (fun _ => none) [] Frequency.Monthly).2.2.2.2
      exZeroLoan Frequency.Monthly exSchedZero hf (build_schedule_parsed hf)
      (by with_unfolding_all rfl) (Or.inl rfl)

/- ------------------------------------------------------------------ -/
/- C6                                                                  -/
/- ------------------------------------------------------------------ -/

lemma getLast?_cons_optOr (a : AdhocRow) (l : List AdhocRow) :
    (a :: l).getLast? = optOr l.getLast? (some a) := by
  cases l with
  | nil => rfl
  | cons b t =>
    rw [List.getLast?_cons_cons]
    obtain ⟨x, hx⟩ : ∃ x, (b :: t).getLast? = some x :=
      ⟨_, List.getLast?_eq_getLast (b :: t) (by simp)⟩
    rw [hx]
    rfl

/-- On a month-sorted list, the scan loop returns the last filtered
element when one exists, else its accumulator: the break cannot skip a
qualifying row. -/
lemma adhocLoop_sorted (t : ℤ) :
    ∀ l : List AdhocRow, l.Sorted monthLe → ∀ acc,
      adhocLoop t acc l =
        optOr (l.filter (fun x => decide (x.month ≤ t))).getLast? acc := by
  intro l
  induction l with
  | nil => intro _ acc; rfl
  | cons r rs ih =>
    intro hs acc
    obtain ⟨hr_all, hrs⟩ := List.sorted_cons.mp hs
    unfold adhocLoop
    by_cases hr : r.month ≤ t
    · rw [if_pos hr, ih hrs (some r)]
      have hfc : (r :: rs).filter (fun x => decide (x.month ≤ t)) =
          r :: rs.filter (fun x => decide (x.month ≤ t)) := by
        simp [List.filter_cons, hr]
      rw [hfc, getLast?_cons_optOr]
      cases hcase : (rs.filter (fun x => decide (x.month ≤ t))).getLast? <;> rfl
    · rw [if_neg hr]
      have hfc : (r :: rs).filter (fun x => decide (x.month ≤ t)) = [] := by
        rw [List.filter_eq_nil_iff]
        intro a ha
        rcases List.mem_cons.mp ha with rfl | hmem
        · simpa using hr
        · have hle := hr_all a hmem
          unfold monthLe at hle
          simp only [decide_eq_true_eq]
          omega
      rw [hfc]
      rfl

/-- The last element of a month-sorted list is a member with maximal
month. -/
lemma sorted_getLast?_max (l : List AdhocRow) (hs : l.Sorted monthLe)
    (m : AdhocRow) (hm : l.getLast? = some m) :
    m ∈ l ∧ ∀ x ∈ l, x.month ≤ m.month := by
  obtain ⟨l', rfl⟩ := List.getLast?_eq_some_iff.mp hm
  constructor
  · simp
  · intro x hx
    rcases List.mem_append.mp hx with hx' | hx'
    · have hpw := List.pairwise_append.mp hs
      have := hpw.2.2 x hx' m (by simp)
      unfold monthLe at this
      exact this
    · rw [List.mem_singleton.mp hx']

/-- adhoc_payment converts the value of any breakpoint that has maximal
month among those ≤ the queried offset (unique when months are nodup). -/
lemma adhoc_payment_max (loan : ℚ) (t : ℤ) (table : List AdhocRow) (usePct : Bool)
    (hnd : (table.map (fun r => r.month)).Nodup)
    (row : AdhocRow) (hrow : row ∈ table) (hle : row.month ≤ t)
    (hmax : ∀ x ∈ table, x.month ≤ t → x.month ≤ row.month) :
    adhoc_payment loan t table usePct =
      (if usePct = true then loan * (row.value / 100) else row.value) := by
  have hne : table ≠ [] := by
    rintro rfl
    exact absurd hrow (by simp)
  unfold adhoc_payment
  rw [if_neg hne]
  have hsorted : (sortByMonth table).Sorted monthLe :=
    List.sorted_insertionSort monthLe table
  rw [show adhocLoop t none (sortByMonth table) =
      optOr ((sortByMonth table).filter (fun x => decide (x.month ≤ t))).getLast? none from
    adhocLoop_sorted t (sortByMonth table) hsorted none]
  have hrow_mem_sorted : row ∈ sortByMonth table :=
    (List.mem_insertionSort monthLe).mpr hrow
  have hrow_mem_fil : row ∈ (sortByMonth table).filter (fun x => decide (x.month ≤ t)) :=
    List.mem_filter.mpr ⟨hrow_mem_sorted, decide_eq_true hle⟩
  have hfil_ne : (sortByMonth table).filter (fun x => decide (x.month ≤ t)) ≠ [] := by
    intro hh
    rw [hh] at hrow_mem_fil
    exact absurd hrow_mem_fil (by simp)
  obtain ⟨m, hm⟩ : ∃ m,
      ((sortByMonth table).filter (fun x => decide (x.month ≤ t))).getLast? = some m :=
    ⟨_, List.getLast?_eq_getLast _ hfil_ne⟩
  rw [hm]
  obtain ⟨hm_mem_fil, hm_max⟩ :=
    sorted_getLast?_max _ (hsorted.filter _) m hm
  have hm_mem : m ∈ table :=
    (List.mem_insertionSort monthLe).mp (List.mem_filter.mp hm_mem_fil).1
  have hm_le : m.month ≤ t := of_decide_eq_true (List.mem_filter.mp hm_mem_fil).2
  have heq : row = m :=
    List.inj_on_of_nodup_map hnd hrow hm_mem
      (le_antisymm (hm_max row hrow_mem_fil) (hmax m hm_mem hm_le))
  rw [← heq]
  rfl

/-- adhoc_payment returns 0 when no breakpoint month is ≤ the queried
offset. -/
lemma adhoc_payment_none (loan : ℚ) (t : ℤ) (table : List AdhocRow) (usePct : Bool)
    (h : ∀ x ∈ table, ¬ x.month ≤ t) :
    adhoc_payment loan t table usePct = 0 := by
  by_cases he : table = []
  · unfold adhoc_payment
    rw [if_pos he]
  · unfold adhoc_payment
    rw [if_neg he]
    rw [show adhocLoop t none (sortByMonth table) =
        optOr ((sortByMonth table).filter (fun x => decide (x.month ≤ t))).getLast? none from
      adhocLoop_sorted t (sortByMonth table) (List.sorted_insertionSort monthLe table) none]
    have hfil : (sortByMonth table).filter (fun x => decide (x.month ≤ t)) = [] := by
      rw [List.filter_eq_nil_iff]
      intro a ha
      simpa using h a ((List.mem_insertionSort monthLe).mp ha)
    rw [hfil]
    rfl

/-- When some breakpoint qualifies, a maximal qualifying breakpoint
exists. -/
lemma adhoc_exists_max (t : ℤ) (table : List AdhocRow)
    (hex : ∃ x ∈ table, x.month ≤ t) :
    ∃ m ∈ table, m.month ≤ t ∧ ∀ x ∈ table, x.month ≤ t → x.month ≤ m.month := by
  obtain ⟨x0, hx0, hx0le⟩ := hex
  have hsorted : (sortByMonth table).Sorted monthLe :=
    List.sorted_insertionSort monthLe table
  have hx0s : x0 ∈ (sortByMonth table).filter (fun x => decide (x.month ≤ t)) :=
    List.mem_filter.mpr ⟨(List.mem_insertionSort monthLe).mpr hx0, decide_eq_true hx0le⟩
  have hfil_ne : (sortByMonth table).filter (fun x => decide (x.month ≤ t)) ≠ [] := by
    intro hh
    rw [hh] at hx0s
    exact absurd hx0s (by simp)
  obtain ⟨m, hm⟩ : ∃ m,
      ((sortByMonth table).filter (fun x => decide (x.month ≤ t))).getLast? = some m :=
    ⟨_, List.getLast?_eq_getLast _ hfil_ne⟩
  obtain ⟨hm_mem_fil, hm_max⟩ := sorted_getLast?_max _ (hsorted.filter _) m hm
  refine ⟨m, (List.mem_insertionSort monthLe).mp (List.mem_filter.mp hm_mem_fil).1,
    of_decide_eq_true (List.mem_filter.mp hm_mem_fil).2, ?_⟩
  intro x hx hxle
  exact hm_max x (List.mem_filter.mpr
    ⟨(List.mem_insertionSort monthLe).mpr hx, decide_eq_true hxle⟩)

/-- C6: on a table with pairwise-distinct month offsets, adhoc_payment
returns the converted value of the breakpoint with the largest month ≤ the
queried offset (loan × value / 100 in percent mode, else the raw value),
returns 0 when no breakpoint qualifies, is invariant under any permutation
of the table, and matches the spec's step-function example. -/
theorem C6_adhoc (loan : ℚ) (t : ℤ) (table : List AdhocRow) (usePct : Bool)
    (hnd : (table.map (fun r => r.month)).Nodup) :
    (∀ row ∈ table, row.month ≤ t → (∀ x ∈ table, x.month ≤ t → x.month ≤ row.month) →
      adhoc_payment loan t table usePct =
        (if usePct = true then loan * (row.value / 100) else row.value)) ∧
    ((∀ row ∈ table, ¬ row.month ≤ t) → adhoc_payment loan t table usePct = 0) ∧
    (∀ table2, table.Perm table2 →
      adhoc_payment loan t table usePct = adhoc_payment loan t table2 usePct) ∧
    (adhoc_payment 1000 3 [⟨6, 50⟩, ⟨12, 100⟩] false = 0 ∧
      adhoc_payment 1000 6 [⟨6, 50⟩, ⟨12, 100⟩] false = 50 ∧
      adhoc_payment 1000 9 [⟨6, 50⟩, ⟨12, 100⟩] false = 50 ∧
      adhoc_payment 1000 12 [⟨6, 50⟩, ⟨12, 100⟩] false = 100) := by
  refine ⟨fun row hrow hle hmax =>
      adhoc_payment_max loan t table usePct hnd row hrow hle hmax,
    adhoc_payment_none loan t table usePct, ?_,
    by with_unfolding_all rfl, by with_unfolding_all rfl,
    by with_unfolding_all rfl, by with_unfolding_all rfl⟩
  intro table2 hperm
  have hnd2 : (table2.map (fun r => r.month)).Nodup :=
    ((hperm.map (fun r => r.month)).nodup_iff).mp hnd
  by_cases hex : ∃ x ∈ table, x.month ≤ t
  · obtain ⟨m, hm_mem, hm_le, hm_max⟩ := adhoc_exists_max t table hex
    rw [adhoc_payment_max loan t table usePct hnd m hm_mem hm_le hm_max,
      adhoc_payment_max loan t table2 usePct hnd2 m (hperm.mem_iff.mp hm_mem) hm_le
        (fun x hx hxle => hm_max x (hperm.mem_iff.mpr hx) hxle)]
  · push_neg at hex
    rw [adhoc_payment_none loan t table usePct (fun x hx => not_le.mpr (hex x hx)),
      adhoc_payment_none loan t table2 usePct
        (fun x hx => not_le.mpr (hex x (hperm.mem_iff.mpr hx)))]

/-- Witness for C6: the spec's example table, queried at offset 9, in both
input orders. -/
theorem C6_adhoc_witness :
    adhoc_payment 1000 9 [⟨6, 50⟩, ⟨12, 100⟩] false = 50 ∧
    adhoc_payment 1000 9 [⟨12, 100⟩, ⟨6, 50⟩] false = 50 := by
  have hnd : (([⟨6, 50⟩, ⟨12, 100⟩] : List AdhocRow).map (fun r => r.month)).Nodup := by
    decide
  have h1 : adhoc_payment 1000 9 [⟨6, 50⟩, ⟨12, 100⟩] false = 50 :=
    (C6_adhoc 1000 9 [⟨6, 50⟩, ⟨12, 100⟩] false hnd).2.2.2.2.2.1
  refine ⟨h1, ?_⟩
  have hp : adhoc_payment 1000 9 [⟨6, 50⟩, ⟨12, 100⟩] false =
      adhoc_payment 1000 9 [⟨12, 100⟩, ⟨6, 50⟩] false :=
    (C6_adhoc 1000 9 [⟨6, 50⟩, ⟨12, 100⟩] false hnd).2.2.1
      [⟨12, 100⟩, ⟨6, 50⟩] (by with_unfolding_all decide)
  rw [← hp]
  exact h1

